import Mathlib

/-!
Verification of the script execution subsystem of the Script Master
application (main-process execution layer: `findBashOnWindows`,
`runScript`, `stopScript`, and the child-process event handlers wired
inside `runScript`).

The JavaScript source is shallowly embedded as follows.

* The host platform (`process.platform`) is the two-valued `Platform`
  (the code only distinguishes `win32` from everything else).
* The mutable `runningProcesses` map (`id -> child`) is an association
  list `Registry`; `Map.get`/`Map.set`/`Map.delete` become `rget`,
  `rset` (overwriting, insertion-order preserving) and `rdel`.
* A `ChildProcess` object is identified by its pid, a `Nat`; `spawn`
  is modelled by threading in the fresh child id and recording the
  command and argument vector that would be spawned (`SpawnInfo`).
* `fs.existsSync` and the relevant environment variables are an
  explicit environment `WinEnv`; `path.join` on win32 is modelled as
  concatenation with the backslash separator (`pathJoin`), without
  separator normalisation, which no claim depends on.
* The IPC messages sent on `scripts:run:output` are `OutputEvent`s;
  the event objects `{id, type, message}` / `{id, type: end, code}`
  are one structure with an optional `message` and an optional `code`
  field (the code itself being `Option Int`, since a killed process
  reports a `null` code).
* The asynchronous `stdout`/`stderr`/`error`/`close` callbacks
  registered by `runScript` are driven by an explicit list of
  `Happening`s delivered by the OS; Node guarantees that a spawned
  child fires `close` exactly once, last (also after a spawn
  failure), which is the `WellFormed` predicate on happening lists.
-/

namespace ScriptMaster

/-- The single-quote character, written by code point to keep source
literals unambiguous. -/
def squote : Char := Char.ofNat 39

/-- The backslash character. -/
def backslash : Char := Char.ofNat 92

/-- The one-character string holding a single quote. -/
def squoteStr : String := String.mk [squote]

/-- The host platform as the code distinguishes it: `process.platform
=== win32` or anything else (the *nix branch). -/
inductive Platform where
  | win32
  | posix
  deriving DecidableEq, Repr

/-- Embedding of defaultShell() from the source: powershell on win32, bash
elsewhere. -/
def defaultShell : Platform → String
  | .win32 => "powershell"
  | .posix => "bash"

/-- JavaScript `a || b` on an optional string: the default is taken
both when the field is absent and when it is the (falsy) empty
string. -/
def jsOr (v : Option String) (d : String) : String :=
  match v with
  | none => d
  | some s => if s = "" then d else s

/-- The filesystem/environment view used by the Windows bash
discovery: `fs.existsSync`, `process.env.SYSTEMROOT` and
`process.env.PATH`. -/
structure WinEnv where
  fsExists : String → Bool
  systemRootEnv : Option String
  pathEnv : Option String

/-- Model of path.join on win32: join with a backslash separator (separator
normalisation of the pieces is not modelled; no claim depends on
it). -/
def pathJoin (a b : String) : String := a ++ String.mk [backslash] ++ b

/-- JavaScript `s.split(sep)` for a one-character separator, on the
character list: splitting the empty string yields one empty group,
exactly as in JS. -/
def splitChars (sep : Char) : List Char → List (List Char)
  | [] => [[]]
  | c :: cs =>
    match splitChars sep cs with
    | [] => if c = sep then [[], []] else [[c]]
    | g :: gs => if c = sep then [] :: g :: gs else (c :: g) :: gs

/-- JavaScript `s.split(";")` as used on the PATH variable. -/
def jsSplitSemicolon (s : String) : List String :=
  (splitChars (Char.ofNat 59) s.data).map String.mk

/-- A discovery result of `findBashOnWindows`: the `type` tag, the
command to spawn and the argument prefix put before the quoted
script content. -/
structure BashInfo where
  btype : String
  command : String
  argsPrefix : List String
  deriving DecidableEq, Repr

/-- The two hard-coded Git Bash install candidates from the source,
verbatim. -/
def gitCandidates : List String :=
  ["C://Program Files//Git//bin//bash.exe",
   "C://Program Files (x86)//Git//bin//bash.exe"]

/-- The `for (const p of gitCandidates)` loop: first candidate that
exists. -/
def findGitBash (fsExists : String → Bool) : List String → Option String
  | [] => none
  | p :: rest => if fsExists p then some p else findGitBash fsExists rest

/-- The PATH scan loop: for each PATH part in listed order, the first
part whose `part/bash.exe` exists, returning that joined candidate. -/
def findPathBash (fsExists : String → Bool) : List String → Option String
  | [] => none
  | part :: rest =>
    let candidate := pathJoin part "bash.exe"
    if fsExists candidate then some candidate else findPathBash fsExists rest

/-- Embedding of findBashOnWindows() from the source: `null` off win32; otherwise
WSL at `%SYSTEMROOT%/System32/wsl.exe` first, then the fixed Git Bash
candidates, then a scan of the `;`-separated PATH, else `null`. -/
def findBashOnWindows (platform : Platform) (env : WinEnv) : Option BashInfo :=
  if platform ≠ .win32 then none
  else
    let systemRoot := jsOr env.systemRootEnv "C://Windows"
    let wslPath := pathJoin (pathJoin systemRoot "System32") "wsl.exe"
    if env.fsExists wslPath then
      some ⟨"wsl", "wsl.exe", ["bash", "-lc"]⟩
    else
      match findGitBash env.fsExists gitCandidates with
      | some p => some ⟨"git-bash", p, ["-lc"]⟩
      | none =>
        let pathParts := jsSplitSemicolon (jsOr env.pathEnv "")
        match findPathBash env.fsExists pathParts with
        | some candidate => some ⟨"path-bash", candidate, ["-lc"]⟩
        | none => none

/-- The script record fields the execution layer reads: `script.shell`
(possibly absent or empty, hence optional under `jsOr`) and
`script.content`. -/
structure Script where
  shell : Option String
  content : String
  deriving DecidableEq, Repr

/-- The `runningProcesses` map, `id -> child`, as an association
list in insertion order. -/
abbrev Registry := List (String × Nat)

/-- Lookup, runningProcesses.get(id). -/
def rget (r : Registry) (id : String) : Option Nat :=
  (r.find? (fun p => p.1 = id)).map (·.2)

/-- Insertion, runningProcesses.set(id, child): overwrites in place when the
key is present, appends otherwise (JS `Map` insertion-order
semantics). -/
def rset (r : Registry) (id : String) (child : Nat) : Registry :=
  if r.any (fun p => p.1 = id) then
    r.map (fun p => if p.1 = id then (id, child) else p)
  else r ++ [(id, child)]

/-- Removal, runningProcesses.delete(id). -/
def rdel (r : Registry) (id : String) : Registry :=
  r.filter (fun p => p.1 ≠ id)

/-- The kind tag of an IPC output event (`type` field). -/
inductive EventKind where
  | kStart
  | kStdout
  | kStderr
  | kError
  | kEnd
  deriving DecidableEq, Repr

/-- One message sent on `scripts:run:output`: `{id, type, message}`
for start/stdout/stderr/error, `{id, type: end, code}` for the close
handler (the exit code itself may be `null`). -/
structure OutputEvent where
  id : String
  kind : EventKind
  message : Option String
  code : Option (Option Int)
  deriving DecidableEq, Repr

/-- What `spawn(command, args, ...)` was called with, plus the child
id it produced. -/
structure SpawnInfo where
  command : String
  args : List String
  child : Nat
  deriving DecidableEq, Repr

/-- The synchronous outcome of one `runScript(event, id)` call: the
registry afterwards, the events sent before returning, and the spawn
performed (if any). -/
structure RunResult where
  registry : Registry
  events : List OutputEvent
  spawned : Option SpawnInfo
  deriving DecidableEq, Repr

/-- The error text sent when no bash environment is found on win32,
verbatim from the source. -/
def noBashMessage : String :=
  "No Bash environment detected. Install WSL (https://learn.microsoft.com/windows/wsl/install) or Git for Windows to enable bash scripts."

/-- The per-character global replace `execContent.replace(... squote
..., squote backslash squote squote)`: every single-quote character
becomes the four-character escape sequence. -/
def escapeChars : List Char → List Char
  | [] => []
  | c :: cs =>
    (if c = squote then [squote, backslash, squote, squote] else [c]) ++ escapeChars cs

/-- The `escaped` local of `runScript` on the discovered-bash path. -/
def escapeSingleQuotes (s : String) : String := String.mk (escapeChars s.data)

/-- The `start` event text: `Running with ${command} ${args.join(" ")}`. -/
def startMessage (command : String) (args : List String) : String :=
  "Running with " ++ command ++ " " ++ String.intercalate " " args

/-- The command/args computation at the head of `runScript(event,
id)`: the shell branch taken for the resolved shell kind, `none`
exactly on the win32 bash/sh path when no bash environment is
discovered (the early-return branch of the source). -/
def spawnPlan (platform : Platform) (env : WinEnv) (script : Script) :
    Option (String × List String) :=
  match platform with
  | .win32 =>
    if jsOr script.shell (defaultShell .win32) = "bash" ∨
        jsOr script.shell (defaultShell .win32) = "sh" then
      match findBashOnWindows .win32 env with
      | none => none
      | some bashInfo =>
        some (bashInfo.command,
              bashInfo.argsPrefix ++
                [squoteStr ++ escapeSingleQuotes script.content ++ squoteStr])
    else if jsOr script.shell (defaultShell .win32) = "cmd" then
      some ("cmd.exe", ["/d", "/c", script.content])
    else
      some ("powershell.exe",
            ["-NoLogo", "-NoProfile", "-ExecutionPolicy", "Bypass", "-Command",
             script.content])
  | .posix =>
    some ((if jsOr script.shell (defaultShell .posix) = "sh" then "sh" else "bash"),
          ["-c", script.content])

/-- Embedding of runScript(event, id) after the record is loaded: when the plan
computation hit the no-bash early return, the synchronous `error`
event is sent and nothing else happens; otherwise the child is
spawned, registered, and the synchronous `start` event is sent. The
fresh child id `newChild` stands for the `ChildProcess` returned by
`spawn`. -/
def runScript (platform : Platform) (env : WinEnv) (r : Registry) (id : String)
    (script : Script) (newChild : Nat) : RunResult :=
  match spawnPlan platform env script with
  | none =>
    { registry := r
      events := [⟨id, .kError, some noBashMessage, none⟩]
      spawned := none }
  | some (command, args) =>
    { registry := rset r id newChild
      events := [⟨id, .kStart, some (startMessage command args), none⟩]
      spawned := some ⟨command, args, newChild⟩ }

/-- One asynchronous delivery from the OS to a spawned child to its
listeners: a stdout chunk, a stderr chunk, an `error` event, or the
final `close` event with its (possibly `null`) exit code. -/
inductive Happening where
  | hStdout (s : String)
  | hStderr (s : String)
  | hError (msg : String)
  | hClose (code : Option Int)
  deriving DecidableEq, Repr

/-- Whether a happening is the `close` event. -/
def Happening.isClose : Happening → Bool
  | .hClose _ => true
  | _ => false

/-- Whether a happening is an `error` event. -/
def Happening.isError : Happening → Bool
  | .hError _ => true
  | _ => false

/-- The IPC event each handler of `runScript` sends for a given
delivery. -/
def happeningEvent (id : String) : Happening → OutputEvent
  | .hStdout s => ⟨id, .kStdout, some s, none⟩
  | .hStderr s => ⟨id, .kStderr, some s, none⟩
  | .hError m => ⟨id, .kError, some m, none⟩
  | .hClose c => ⟨id, .kEnd, none, some c⟩

/-- The registry effect of each handler: only the `close` handler
touches the registry (`runningProcesses.delete(id)`). -/
def stepHappening (id : String) (r : Registry) : Happening → Registry
  | .hClose _ => rdel r id
  | _ => r

/-- Running the handlers over a delivery sequence: the final registry
and the events sent, in order. -/
def processHappenings (id : String) (r : Registry) :
    List Happening → Registry × List OutputEvent
  | [] => (r, [])
  | h :: hs =>
    let next := processHappenings id (stepHappening id r h) hs
    (next.1, happeningEvent id h :: next.2)

/-- The Node delivery guarantee for a spawned child: `close` fires
exactly once, after every other event of the child (also when the
spawn itself failed, in which case `close` follows `error`). -/
def WellFormed (hs : List Happening) : Prop :=
  ∃ pre c, hs = pre ++ [Happening.hClose c] ∧ ∀ h ∈ pre, h.isClose = false

/-- A whole completed run: the synchronous part of `runScript`
followed by the delivery of `hs` to the handlers; result is the
final registry and the full event sequence for the run. -/
def completedRun (platform : Platform) (env : WinEnv) (r : Registry) (id : String)
    (script : Script) (newChild : Nat) (hs : List Happening) :
    Registry × List OutputEvent :=
  let res := runScript platform env r id script newChild
  let fin := processHappenings id res.registry hs
  (fin.1, res.events ++ fin.2)

/-- What `stopScript` does to the outside world: spawn a process
(taskkill) or deliver a signal to the child. -/
inductive StopAction where
  | spawnProc (command : String) (args : List String)
  | killSignal (child : Nat) (signal : String)
  deriving DecidableEq, Repr

/-- The outcome of one `stopScript(id)` call. -/
structure StopResult where
  registry : Registry
  result : Bool
  actions : List StopAction
  events : List OutputEvent
  deriving DecidableEq, Repr

/-- Embedding of stopScript(id) from the source: `false` and nothing done when
the id is not registered; otherwise `taskkill /pid <pid> /T /F` on
win32 or `SIGTERM` to the direct child elsewhere, returning `true`.
It sends no output events and never touches the registry. -/
def stopScript (platform : Platform) (r : Registry) (id : String) : StopResult :=
  match rget r id with
  | none => ⟨r, false, [], []⟩
  | some child =>
    ⟨r, true,
     [match platform with
      | .win32 => .spawnProc "taskkill" ["/pid", toString child, "/T", "/F"]
      | .posix => .killSignal child "SIGTERM"],
     []⟩

/-! ## Basic lemmas about the registry and the handler loop -/

theorem rget_map_set (r : Registry) (id : String) (c : Nat)
    (h : r.any (fun p => p.1 = id) = true) :
    rget (r.map (fun p => if p.1 = id then (id, c) else p)) id = some c := by
  induction r with
  | nil => simp at h
  | cons hd tl ih =>
    by_cases hhd : hd.1 = id
    · simp [rget, List.find?, hhd]
    · simp only [List.any_cons, Bool.or_eq_true, decide_eq_true_eq] at h
      rcases h with h | h
      · exact absurd h hhd
      · simpa [rget, List.find?, hhd] using ih h

theorem rget_append_fresh (r : Registry) (id : String) (c : Nat)
    (h : r.any (fun p => p.1 = id) = false) :
    rget (r ++ [(id, c)]) id = some c := by
  induction r with
  | nil => simp [rget, List.find?]
  | cons hd tl ih =>
    simp only [List.any_cons, Bool.or_eq_false_iff, decide_eq_false_iff_not] at h
    simpa [rget, List.find?, h.1] using ih (by simpa using h.2)

/-- After `runningProcesses.set(id, c)` the id maps to `c`. -/
theorem rget_rset_self (r : Registry) (id : String) (c : Nat) :
    rget (rset r id c) id = some c := by
  by_cases h : r.any (fun p => p.1 = id) = true
  · simpa [rset, h] using rget_map_set r id c h
  · have h2 : r.any (fun p => p.1 = id) = false := by
      cases hv : r.any (fun p => p.1 = id)
      · rfl
      · exact absurd hv h
    simpa [rset, h2] using rget_append_fresh r id c h2

/-- The Git Bash loop is exactly "first existing candidate". -/
theorem findGitBash_eq_find (f : String → Bool) (l : List String) :
    findGitBash f l = l.find? f := by
  induction l with
  | nil => rfl
  | cons p rest ih =>
    by_cases h : f p = true
    · simp [findGitBash, List.find?, h]
    · have h2 : f p = false := by
        cases hv : f p
        · rfl
        · exact absurd hv h
      simp [findGitBash, List.find?, h2, ih]

/-- The PATH scan loop is exactly "first PATH part whose joined
`bash.exe` exists", returning the joined candidate. -/
theorem findPathBash_eq_find (f : String → Bool) (l : List String) :
    findPathBash f l =
      (l.find? (fun part => f (pathJoin part "bash.exe"))).map
        (fun part => pathJoin part "bash.exe") := by
  induction l with
  | nil => rfl
  | cons part rest ih =>
    by_cases h : f (pathJoin part "bash.exe") = true
    · simp [findPathBash, List.find?, h]
    · have h2 : f (pathJoin part "bash.exe") = false := by
        cases hv : f (pathJoin part "bash.exe")
        · rfl
        · exact absurd hv h
      simp [findPathBash, List.find?, h2, ih]

/-- The events the handlers send do not depend on the registry: they
are the per-delivery events in delivery order. -/
theorem processHappenings_events (id : String) (r : Registry) (hs : List Happening) :
    (processHappenings id r hs).2 = hs.map (happeningEvent id) := by
  induction hs generalizing r with
  | nil => rfl
  | cons h hs ih => simp [processHappenings, ih]

/-- Registry evolution splits over concatenated delivery sequences. -/
theorem processHappenings_fst_append (id : String) (r : Registry)
    (xs ys : List Happening) :
    (processHappenings id r (xs ++ ys)).1 =
      (processHappenings id (processHappenings id r xs).1 ys).1 := by
  induction xs generalizing r with
  | nil => rfl
  | cons h xs ih => simp [processHappenings, ih]

/-- Deliveries other than `close` leave the registry untouched. -/
theorem processHappenings_fst_noclose (id : String) (r : Registry)
    (hs : List Happening) (h : ∀ x ∈ hs, x.isClose = false) :
    (processHappenings id r hs).1 = r := by
  induction hs generalizing r with
  | nil => rfl
  | cons x hs ih =>
    have hx : x.isClose = false := h x (by simp)
    have hstep : stepHappening id r x = r := by
      cases x <;> simp_all [stepHappening, Happening.isClose]
    simp only [processHappenings, hstep]
    exact ih r (fun y hy => h y (by simp [hy]))

/-- The handler event for a delivery is a `start` event never. -/
theorem happeningEvent_kind_ne_start (id : String) (h : Happening) :
    (happeningEvent id h).kind ≠ EventKind.kStart := by
  cases h <;> simp [happeningEvent]

/-- The handler event has kind `end` exactly for the `close`
delivery. -/
theorem happeningEvent_kind_end_iff (id : String) (h : Happening) :
    ((happeningEvent id h).kind = EventKind.kEnd) ↔ h.isClose = true := by
  cases h <;> simp [happeningEvent, Happening.isClose]

/-- The handler event has kind `error` exactly for the `error`
delivery. -/
theorem happeningEvent_kind_error_iff (id : String) (h : Happening) :
    ((happeningEvent id h).kind = EventKind.kError) ↔ h.isError = true := by
  cases h <;> simp [happeningEvent, Happening.isError]

/-- Character-level specification of the escaping: each character maps
to itself, except a single quote which becomes the four-character
sequence quote, backslash, quote, quote. -/
theorem escapeChars_eq_flatMap (cs : List Char) :
    escapeChars cs =
      cs.flatMap
        (fun c => if c = squote then [squote, backslash, squote, squote] else [c]) := by
  induction cs with
  | nil => rfl
  | cons c cs ih => simp [escapeChars, ih]

/-! ## Concrete fixtures used by counterexamples and witnesses -/

/-- An environment in which no filesystem probe succeeds and no
environment variable is set. -/
def envNone : WinEnv := ⟨fun _ => false, none, none⟩

/-- A stored script selecting the bash shell. -/
def bashScript : Script := ⟨some "bash", "echo hi"⟩

/-- The WSL launcher path probed when SYSTEMROOT is unset. -/
def wslDefaultPath : String :=
  pathJoin (pathJoin "C://Windows" "System32") "wsl.exe"

/-- An environment in which exactly the WSL launcher exists. -/
def envWsl : WinEnv := ⟨fun s => s == wslDefaultPath, none, none⟩

/-- A content string holding the three characters e, single quote, c. -/
def quoteyContent : String := String.mk [Char.ofNat 101, squote, Char.ofNat 99]

/-- A stored sh script whose content contains a single quote. -/
def quoteyScript : Script := ⟨some "sh", quoteyContent⟩

/-- Structural prefix test on character lists. -/
def prefixCheck : List Char → List Char → Bool
  | [], _ => true
  | _ :: _, [] => false
  | a :: as, b :: bs => (a = b) && prefixCheck as bs

/-- Structural substring test on character lists. -/
def substringCheck (sub : List Char) : List Char → Bool
  | [] => prefixCheck sub []
  | c :: cs => prefixCheck sub (c :: cs) || substringCheck sub cs

/-- Whether `sub` occurs inside `s`. -/
def containsText (s sub : String) : Bool := substringCheck sub.data s.data

/-! ## Claims -/

/-- C2: on win32 with shell kind bash or sh, when the bash discovery
finds nothing, `runScript` returns synchronously with only the
no-bash `error` event, spawns no child, and leaves the registry
exactly as it was. -/
theorem c2_unresolved_shell_no_spawn (env : WinEnv) (r : Registry) (id : String)
    (script : Script) (newChild : Nat)
    (hshell : jsOr script.shell (defaultShell .win32) = "bash" ∨
      jsOr script.shell (defaultShell .win32) = "sh")
    (hnone : findBashOnWindows .win32 env = none) :
    runScript .win32 env r id script newChild =
      ⟨r, [⟨id, .kError, some noBashMessage, none⟩], none⟩ := by
  simp [runScript, spawnPlan, if_pos hshell, hnone]

/-- Witness for C2 at a concrete empty environment. -/
theorem c2_unresolved_shell_no_spawn_witness :
    runScript .win32 envNone [("b", 7)] "a" bashScript 1 =
      ⟨[("b", 7)], [⟨"a", .kError, some noBashMessage, none⟩], none⟩ :=
  c2_unresolved_shell_no_spawn envNone [("b", 7)] "a" bashScript 1
    (Or.inl (by decide)) (by decide)

/-- C7: on a POSIX-like platform, bash resolves to `bash -c content`,
sh to `sh -c content`, and requested powershell or cmd fall through
to `bash -c content`. -/
theorem c7_posix_resolution (env : WinEnv) (r : Registry) (id : String)
    (content : String) (newChild : Nat) :
    (runScript .posix env r id ⟨some "bash", content⟩ newChild).spawned =
      some ⟨"bash", ["-c", content], newChild⟩ ∧
    (runScript .posix env r id ⟨some "sh", content⟩ newChild).spawned =
      some ⟨"sh", ["-c", content], newChild⟩ ∧
    (runScript .posix env r id ⟨some "powershell", content⟩ newChild).spawned =
      some ⟨"bash", ["-c", content], newChild⟩ ∧
    (runScript .posix env r id ⟨some "cmd", content⟩ newChild).spawned =
      some ⟨"bash", ["-c", content], newChild⟩ :=
  ⟨rfl, rfl, rfl, rfl⟩

/-- C8: `stopScript` returns true exactly when the id has a live
registry entry, and it emits no output events. -/
theorem c8_stop_returns_iff_registered (platform : Platform) (r : Registry)
    (id : String) :
    ((stopScript platform r id).result = true ↔ ∃ c, rget r id = some c) ∧
    (stopScript platform r id).events = [] := by
  cases h : rget r id <;> simp [stopScript, h]

/-- C9: stopping a registered id runs `taskkill /pid <pid> /T /F` on
win32 (tree kill keyed by the child pid) and sends a single SIGTERM
to the direct child on POSIX. -/
theorem c9_stop_mechanism (r : Registry) (id : String) (c : Nat)
    (h : rget r id = some c) :
    (stopScript .win32 r id).actions =
      [.spawnProc "taskkill" ["/pid", toString c, "/T", "/F"]] ∧
    (stopScript .posix r id).actions = [.killSignal c "SIGTERM"] := by
  simp [stopScript, h]

/-- Witness for C9 at a registry holding child 3 for id a. -/
theorem c9_stop_mechanism_witness :
    (stopScript .win32 [("a", 3)] "a").actions =
      [.spawnProc "taskkill" ["/pid", "3", "/T", "/F"]] ∧
    (stopScript .posix [("a", 3)] "a").actions = [.killSignal 3 "SIGTERM"] :=
  c9_stop_mechanism [("a", 3)] "a" 3 (by decide)

/-- C10: `stopScript` never mutates the registry; a registered id is
still registered after a successful stop, so a repeated stop returns
true again; and among the handlers only the `close` one removes the
entry (the others leave the registry untouched). -/
theorem c10_stop_frame (platform : Platform) (r : Registry) (id : String) :
    (stopScript platform r id).registry = r ∧
    (∀ c, rget r id = some c →
      (stopScript platform r id).result = true ∧
      (stopScript platform (stopScript platform r id).registry id).result = true) ∧
    (∀ h : Happening, h.isClose = false → stepHappening id r h = r) ∧
    (∀ cd, stepHappening id r (.hClose cd) = rdel r id) := by
  refine ⟨?_, ?_, ?_, ?_⟩
  · cases h : rget r id <;> simp [stopScript, h]
  · intro c hc
    constructor <;> simp [stopScript, hc]
  · intro h hns
    cases h <;> simp_all [stepHappening, Happening.isClose]
  · intro cd
    rfl

/-- Witness for C10: with child 3 registered for id a, stop leaves the
registry alone and a second stop still returns true. -/
theorem c10_stop_frame_witness :
    (stopScript .posix [("a", 3)] "a").registry = [("a", 3)] ∧
    (stopScript .posix
      (stopScript .posix [("a", 3)] "a").registry "a").result = true :=
  ⟨(c10_stop_frame .posix [("a", 3)] "a").1,
   ((c10_stop_frame .posix [("a", 3)] "a").2.1 3 (by decide)).2⟩

/-- C5: on win32 the bash discovery tries the probes in strict
priority order, first hit wins: the WSL launcher at the System32
path (command `wsl.exe`, prefix `bash -lc`), then the first existing
Git Bash install candidate (prefix `-lc`), then the first PATH
directory containing `bash.exe` in listed order (prefix `-lc`);
when all fail the result is the unresolved failure, whose message
names both WSL and Git for Windows. -/
theorem c5_discovery_priority (env : WinEnv) :
    (env.fsExists (pathJoin (pathJoin (jsOr env.systemRootEnv "C://Windows")
        "System32") "wsl.exe") = true →
      findBashOnWindows .win32 env = some ⟨"wsl", "wsl.exe", ["bash", "-lc"]⟩) ∧
    (env.fsExists (pathJoin (pathJoin (jsOr env.systemRootEnv "C://Windows")
        "System32") "wsl.exe") = false →
      (∀ p, gitCandidates.find? env.fsExists = some p →
        findBashOnWindows .win32 env = some ⟨"git-bash", p, ["-lc"]⟩) ∧
      (gitCandidates.find? env.fsExists = none →
        (∀ d, (jsSplitSemicolon (jsOr env.pathEnv "")).find?
            (fun part => env.fsExists (pathJoin part "bash.exe")) = some d →
          findBashOnWindows .win32 env =
            some ⟨"path-bash", pathJoin d "bash.exe", ["-lc"]⟩) ∧
        ((jsSplitSemicolon (jsOr env.pathEnv "")).find?
            (fun part => env.fsExists (pathJoin part "bash.exe")) = none →
          findBashOnWindows .win32 env = none))) ∧
    (containsText noBashMessage "WSL" = true ∧
     containsText noBashMessage "Git for Windows" = true) := by
  refine ⟨?_, ?_, by decide⟩
  · intro h
    simp [findBashOnWindows, h]
  · intro hwsl
    refine ⟨?_, ?_⟩
    · intro p hp
      simp [findBashOnWindows, hwsl, findGitBash_eq_find, hp]
    · intro hgit
      refine ⟨?_, ?_⟩
      · intro d hd
        simp [findBashOnWindows, hwsl, findGitBash_eq_find, hgit,
              findPathBash_eq_find, hd]
      · intro hpath
        simp [findBashOnWindows, hwsl, findGitBash_eq_find, hgit,
              findPathBash_eq_find, hpath]

/-- Witness for C5: with exactly the default WSL launcher present,
discovery yields the WSL plan. -/
theorem c5_discovery_priority_witness :
    findBashOnWindows .win32 envWsl = some ⟨"wsl", "wsl.exe", ["bash", "-lc"]⟩ :=
  (c5_discovery_priority envWsl).1 (by decide)

/-- C6: on the discovered-bash path the content argument handed to the
shell is the content wrapped in single quotes, after every embedded
single quote has been replaced by the four-character sequence quote,
backslash, quote, quote. -/
theorem c6_quoting (env : WinEnv) (r : Registry) (id : String) (script : Script)
    (newChild : Nat) (bashInfo : BashInfo)
    (hshell : jsOr script.shell (defaultShell .win32) = "bash" ∨
      jsOr script.shell (defaultShell .win32) = "sh")
    (hfind : findBashOnWindows .win32 env = some bashInfo) :
    (runScript .win32 env r id script newChild).spawned =
      some ⟨bashInfo.command,
            bashInfo.argsPrefix ++
              [squoteStr ++ escapeSingleQuotes script.content ++ squoteStr],
            newChild⟩ ∧
    (escapeSingleQuotes script.content).data =
      script.content.data.flatMap
        (fun c => if c = squote then [squote, backslash, squote, squote]
                  else [c]) := by
  constructor
  · simp [runScript, spawnPlan, if_pos hshell, hfind]
  · exact escapeChars_eq_flatMap script.content.data

/-- Witness for C6: a content with one embedded quote, run through the
WSL plan; the handed argument is the wrapped escaped content. -/
theorem c6_quoting_witness :
    (runScript .win32 envWsl [] "a" quoteyScript 1).spawned =
      some ⟨"wsl.exe",
            ["bash", "-lc", squoteStr ++ escapeSingleQuotes quoteyContent ++ squoteStr],
            1⟩ ∧
    escapeSingleQuotes quoteyContent =
      String.mk [Char.ofNat 101, squote, backslash, squote, squote, Char.ofNat 99] :=
  ⟨(c6_quoting envWsl [] "a" quoteyScript 1 ⟨"wsl", "wsl.exe", ["bash", "-lc"]⟩
      (Or.inr (by decide)) (by decide)).1,
   by decide⟩

/-- C1 (amended): `runScript` performs no already-running check —
whether and what it spawns is independent of the registry contents,
and whenever it spawns, the id is (re)bound to the new child, so a
second run on a live id overwrites the entry of the first run instead of
failing. -/
theorem c1_second_run_overwrites (platform : Platform) (env : WinEnv)
    (r r2 : Registry) (id : String) (script : Script) (newChild : Nat) :
    ((runScript platform env r id script newChild).spawned =
      (runScript platform env r2 id script newChild).spawned) ∧
    (∀ info, (runScript platform env r id script newChild).spawned = some info →
      rget (runScript platform env r id script newChild).registry id =
        some newChild) := by
  constructor
  · cases h : spawnPlan platform env script with
    | none => simp [runScript, h]
    | some pr => obtain ⟨command, args⟩ := pr; simp [runScript, h]
  · intro info hinfo
    cases h : spawnPlan platform env script with
    | none => simp [runScript, h] at hinfo
    | some pr =>
      obtain ⟨command, args⟩ := pr
      simpa [runScript, h] using rget_rset_self r id newChild

/-- Counterexample to C1 as stated: with a run of id a live (child 1
registered), a second `runScript` for a does not fail — it spawns a
second child and silently replaces the registry entry, so the entry of the
first run is disturbed. -/
theorem c1_counterexample :
    rget (runScript .posix envNone [] "a" bashScript 1).registry "a" = some 1 ∧
    (runScript .posix envNone
        (runScript .posix envNone [] "a" bashScript 1).registry
        "a" bashScript 2).spawned = some ⟨"bash", ["-c", "echo hi"], 2⟩ ∧
    rget (runScript .posix envNone
        (runScript .posix envNone [] "a" bashScript 1).registry
        "a" bashScript 2).registry "a" = some 2 := by
  refine ⟨by decide, by decide, by decide⟩

/-- Witness for C1 (amended) at a registry already holding child 5 for
id a: the second run spawns and rebinds a to the new child 7. -/
theorem c1_second_run_overwrites_witness :
    rget (runScript .posix envNone [("a", 5)] "a" bashScript 7).registry "a" =
      some 7 :=
  (c1_second_run_overwrites .posix envNone [("a", 5)] [] "a" bashScript 7).2
    ⟨"bash", ["-c", "echo hi"], 7⟩ (by decide)

/-- C3: for every well-formed delivery sequence, the final registry
equals the registry with the id deleted — an erroring run is cleaned
up exactly as a normal exit — and every `error` delivery surfaces as
an `error` output event. -/
theorem c3_error_surfaced_and_cleanup (id : String) (r : Registry)
    (hs : List Happening) (hwf : WellFormed hs) :
    (processHappenings id r hs).1 = rdel r id ∧
    ∀ m, Happening.hError m ∈ hs →
      (⟨id, .kError, some m, none⟩ : OutputEvent) ∈
        (processHappenings id r hs).2 := by
  obtain ⟨pre, c, rfl, hpre⟩ := hwf
  constructor
  · rw [processHappenings_fst_append,
        processHappenings_fst_noclose id r pre hpre]
    rfl
  · intro m hm
    rw [processHappenings_events]
    exact List.mem_map_of_mem _ hm

/-- Witness for C3: a spawn-failure-style delivery (error then close)
removes the entry and surfaces the error event. -/
theorem c3_error_surfaced_and_cleanup_witness :
    (processHappenings "a" [("a", 1)]
        [Happening.hError "boom", Happening.hClose none]).1 =
      rdel [("a", 1)] "a" ∧
    (⟨"a", .kError, some "boom", none⟩ : OutputEvent) ∈
      (processHappenings "a" [("a", 1)]
        [Happening.hError "boom", Happening.hClose none]).2 :=
  ⟨(c3_error_surfaced_and_cleanup "a" [("a", 1)]
      [Happening.hError "boom", Happening.hClose none]
      ⟨[Happening.hError "boom"], none, rfl, by decide⟩).1,
   (c3_error_surfaced_and_cleanup "a" [("a", 1)]
      [Happening.hError "boom", Happening.hClose none]
      ⟨[Happening.hError "boom"], none, rfl, by decide⟩).2 "boom" (by decide)⟩

/-- An event of terminal kind (`end` or `error`) in the sense of the
event-ordering claim. -/
def isTerminalEvent (e : OutputEvent) : Bool :=
  e.kind == EventKind.kEnd || e.kind == EventKind.kError

/-- The event-ordering property exactly as claimed: the sequence
begins with exactly one `start`, ends with exactly one terminal
event, and contains only `stdout`/`stderr` events in between. -/
def claimC4Holds (es : List OutputEvent) : Bool :=
  match es.head? with
  | none => false
  | some first =>
    (first.kind == EventKind.kStart) &&
    ((es.filter (fun e => e.kind == EventKind.kStart)).length == 1) &&
    (match es.getLast? with
     | none => false
     | some last => isTerminalEvent last) &&
    ((es.filter isTerminalEvent).length == 1) &&
    ((es.drop 1).dropLast.all
      (fun e => e.kind == EventKind.kStdout || e.kind == EventKind.kStderr))

/-- No handler event is a `start` event, so the filter for `start`
over handler events is empty. -/
theorem filter_start_map_happenings (id : String) (pre : List Happening) :
    (pre.map (happeningEvent id)).filter
      (fun e => e.kind == EventKind.kStart) = [] := by
  induction pre with
  | nil => rfl
  | cons h t ih => cases h <;> simpa [happeningEvent] using ih

/-- Over deliveries that are not `close`, no handler event has kind
`end`. -/
theorem filter_end_map_happenings (id : String) (pre : List Happening)
    (hpre : ∀ x ∈ pre, x.isClose = false) :
    (pre.map (happeningEvent id)).filter
      (fun e => e.kind == EventKind.kEnd) = [] := by
  induction pre with
  | nil => rfl
  | cons h t ih =>
    have hh := hpre h (by simp)
    cases h with
    | hClose c => simp [Happening.isClose] at hh
    | hStdout s =>
      simpa [happeningEvent] using ih (fun y hy => hpre y (by simp [hy]))
    | hStderr s =>
      simpa [happeningEvent] using ih (fun y hy => hpre y (by simp [hy]))
    | hError m =>
      simpa [happeningEvent] using ih (fun y hy => hpre y (by simp [hy]))

/-- The handler events of kind `error` are exactly the images of the
`error` deliveries. -/
theorem length_filter_error_map_happenings (id : String) (pre : List Happening) :
    ((pre.map (happeningEvent id)).filter
      (fun e => e.kind == EventKind.kError)).length =
      (pre.filter Happening.isError).length := by
  induction pre with
  | nil => rfl
  | cons h t ih => cases h <;> simp [happeningEvent, Happening.isError, ih]

/-- Every handler event for a non-`close` delivery has kind `stdout`,
`stderr` or `error`. -/
theorem kind_map_happenings (id : String) (pre : List Happening)
    (hpre : ∀ x ∈ pre, x.isClose = false) :
    ∀ e ∈ pre.map (happeningEvent id),
      e.kind = EventKind.kStdout ∨ e.kind = EventKind.kStderr ∨
        e.kind = EventKind.kError := by
  intro e he
  obtain ⟨h, hh, rfl⟩ := List.mem_map.mp he
  cases h with
  | hClose c => simpa [Happening.isClose] using hpre _ hh
  | hStdout s => simp [happeningEvent]
  | hStderr s => simp [happeningEvent]
  | hError m => simp [happeningEvent]

/-- Counterexample to C4 as stated: a spawned run whose child fires
`error` and then `close` (as Node does on a spawn failure) emits the
realizable sequence start, error, end — which has two terminal-kind
events, and an event in between that is neither stdout nor stderr —
so the claimed ordering property fails on it. -/
theorem c4_counterexample :
    WellFormed [Happening.hError "boom", Happening.hClose none] ∧
    (runScript .posix envNone [] "a" bashScript 1).spawned.isSome = true ∧
    claimC4Holds
      (completedRun .posix envNone [] "a" bashScript 1
        [Happening.hError "boom", Happening.hClose none]).2 = false :=
  ⟨⟨[Happening.hError "boom"], none, rfl, by decide⟩, by decide, by decide⟩

/-- C4 (amended): for every completed run (spawn succeeded, deliveries
well formed with at most one `error`), the event sequence begins
with exactly one `start`, ends with exactly one `end` carrying the
(possibly null) exit code, contains only `stdout`/`stderr` and at
most one `error` event in between, and no terminal event precedes
the `start`. -/
theorem c4_event_ordering (platform : Platform) (env : WinEnv) (r : Registry)
    (id : String) (script : Script) (newChild : Nat) (hs : List Happening)
    (es : List OutputEvent)
    (hwf : WellFormed hs)
    (herr : (hs.filter Happening.isError).length ≤ 1)
    (hsp : (runScript platform env r id script newChild).spawned.isSome = true)
    (hes : es = (completedRun platform env r id script newChild hs).2) :
    es.head?.map OutputEvent.kind = some EventKind.kStart ∧
    (es.filter (fun e => e.kind == EventKind.kStart)).length = 1 ∧
    (∃ c, es.getLast? = some ⟨id, EventKind.kEnd, none, some c⟩) ∧
    (es.filter (fun e => e.kind == EventKind.kEnd)).length = 1 ∧
    (es.filter (fun e => e.kind == EventKind.kError)).length ≤ 1 ∧
    ∀ e ∈ (es.drop 1).dropLast,
      e.kind = EventKind.kStdout ∨ e.kind = EventKind.kStderr ∨
        e.kind = EventKind.kError := by
  obtain ⟨pre, c, rfl, hpre⟩ := hwf
  obtain ⟨⟨command, args⟩, hplan⟩ :
      ∃ pr, spawnPlan platform env script = some pr := by
    cases h : spawnPlan platform env script with
    | none => simp [runScript, h] at hsp
    | some pr => exact ⟨pr, rfl⟩
  have hev : es =
      ⟨id, EventKind.kStart, some (startMessage command args), none⟩ ::
        (pre.map (happeningEvent id) ++
          [⟨id, EventKind.kEnd, none, some c⟩]) := by
    subst hes
    simp [completedRun, runScript, hplan, processHappenings_events,
          happeningEvent]
  subst hev
  refine ⟨rfl, ?_, ?_, ?_, ?_, ?_⟩
  · simp [List.filter_append, filter_start_map_happenings]
  · refine ⟨c, ?_⟩
    rw [show
        (⟨id, EventKind.kStart, some (startMessage command args), none⟩ ::
          (pre.map (happeningEvent id) ++
            [(⟨id, EventKind.kEnd, none, some c⟩ : OutputEvent)])) =
        ((⟨id, EventKind.kStart, some (startMessage command args), none⟩ ::
          pre.map (happeningEvent id)) ++
            [(⟨id, EventKind.kEnd, none, some c⟩ : OutputEvent)])
      from rfl]
    exact List.getLast?_concat _
  · simp [List.filter_append, filter_end_map_happenings id pre hpre]
  · have h1 : (pre.filter Happening.isError).length ≤ 1 := by
      calc (pre.filter Happening.isError).length
          ≤ ((pre ++ [Happening.hClose c]).filter Happening.isError).length := by
            simp [List.filter_append, Happening.isError]
        _ ≤ 1 := herr
    simpa [List.filter_append, length_filter_error_map_happenings] using h1
  · intro e he
    have hmem : e ∈ pre.map (happeningEvent id) := by
      simpa [List.dropLast_concat] using he
    exact kind_map_happenings id pre hpre e hmem

/-- Witness for C4 (amended): a run with one stdout chunk then a clean
close has exactly one `start` and exactly one `end`. -/
theorem c4_event_ordering_witness :
    (((completedRun .posix envNone [] "a" bashScript 1
        [Happening.hStdout "x", Happening.hClose (some 0)]).2.filter
          (fun e => e.kind == EventKind.kStart)).length = 1) ∧
    (((completedRun .posix envNone [] "a" bashScript 1
        [Happening.hStdout "x", Happening.hClose (some 0)]).2.filter
          (fun e => e.kind == EventKind.kEnd)).length = 1) :=
  ⟨(c4_event_ordering .posix envNone [] "a" bashScript 1
      [Happening.hStdout "x", Happening.hClose (some 0)] _
      ⟨[Happening.hStdout "x"], some 0, rfl, by decide⟩ (by decide) (by decide)
      rfl).2.1,
   (c4_event_ordering .posix envNone [] "a" bashScript 1
      [Happening.hStdout "x", Happening.hClose (some 0)] _
      ⟨[Happening.hStdout "x"], some 0, rfl, by decide⟩ (by decide) (by decide)
      rfl).2.2.2.1⟩

end ScriptMaster
